import Mathlib

/-!
Shallow embedding of the Weenix virtual address-space map subsystem
(`src/kernel/vm/vmmap.c`) and verification of its specification claims.

A `vmmap` is modelled as the ordered list of its `vmarea`s (the intrusive
doubly-linked `vmm_list` in the source).  Memory objects are modelled as an
inductive `Mmobj`; their strong-reference counts live in an explicit ambient
state `Mmobj → Int` mutated by the embedded `ref`/`put` calls.  The external
collaborators (slab allocator, `anon_create`, `lookuppage`, the vnode `mmap`
callback) are modelled as oracles passed as parameters, so every code path of
the source — including failure paths — is reachable in the embedding.

Machine integers: the source uses `uint32_t` page numbers.  Arithmetic that
can wrap is embedded with explicit `% U32` (see `u32sub`); everything else is
plain `Nat`.
-/

namespace VmmapSpec

/-- `2^32`, the modulus of the source's `uint32_t` page arithmetic. -/
def U32 : Nat := 4294967296

/-- `uint32_t` subtraction `a - b` with wrap-around, as in the source. -/
def u32sub (a b : Nat) : Nat := (a + U32 - b) % U32

/-- Modelled from the spec: `ENOSPC` errno value from the repository's
`errno.h` (outside `src/`); the source returns `-ENOSPC` on allocator
exhaustion.  The exact numeric value is irrelevant to every claim. -/
def ENOSPC : Int := 28

/-- Modelled from the spec: the page size from the repository's `page.h`
(outside `src/`); the spec's concrete scenarios fix it at 4096. -/
def PAGE_SIZE : Nat := 4096

/-- Modelled from the spec: `VMMAP_DIR_HILO` from `vmmap.h` (outside `src/`).
The source tests `dir == VMMAP_DIR_LOHI || dir == 0` and treats everything
else as high-to-low, so only distinctness of the two constants matters. -/
def VMMAP_DIR_HILO : Nat := 1

/-- Modelled from the spec: `VMMAP_DIR_LOHI` from `vmmap.h` (outside `src/`). -/
def VMMAP_DIR_LOHI : Nat := 2

/-- Modelled from the spec: the `MAP_PRIVATE` flag bit from `mman.h`
(outside `src/`).  The source only tests `flags & MAP_PRIVATE` (and the body
of that test is empty), so the exact bit value is irrelevant to every claim. -/
def MAP_PRIVATE : Nat := 2

/-- A memory object (`mmobj_t`).  The `vmmap.c` core treats objects opaquely;
the constructors record which collaborator produced the object: `anon` from
`anon_create`, `shadow` from `shadow_create` (never called by the source's
`vmmap_map`), `vn` for an object supplied by a vnode's `mmap` callback. -/
inductive Mmobj where
  | anon : Nat → Mmobj
  | shadow : Mmobj → Mmobj
  | vn : Nat → Mmobj
deriving DecidableEq

/-- Is the object a shadow object (copy-on-write overlay)? -/
def Mmobj.isShadow : Mmobj → Bool
  | .shadow _ => true
  | _ => false

/-- A virtual memory area (`vmarea_t`).  `vma_obj` is an `Option` because
`vmarea_alloc` does not initialise the object field (`none` = never
assigned).  The `vma_vmmap` back pointer and the `vma_plink`/`vma_olink`
intrusive links are represented by the region's position in the map list and
are not separate fields. -/
structure Vmarea where
  vma_start : Nat
  vma_end : Nat
  vma_off : Nat
  vma_prot : Int
  vma_flags : Nat
  vma_obj : Option Mmobj
deriving DecidableEq

/-- Adjust the strong-reference count of an (optional) object:
`refBump refs o 1` is `o->mmo_ops->ref(o)`, `refBump refs o (-1)` is
`o->mmo_ops->put(o)`.  (On a null object the source would fault; no claim
exercises that path.) -/
def refBump (refs : Mmobj → Int) (o : Option Mmobj) (d : Int) : Mmobj → Int :=
  match o with
  | none => refs
  | some obj => fun x => if x = obj then refs x + d else refs x

/-- Scan step of `vmmap_insert` (vmmap.c:153-171): walking the list with the
previous area in hand, link the new area before the first `cur` with
`new.end ≤ cur.start ∧ prev.end ≤ new.start`; if the scan completes, link at
the tail (vmmap.c:173-175). -/
def vmmap_insert_go (newvma prev : Vmarea) : List Vmarea → List Vmarea
  | [] => [newvma]
  | cur :: rest =>
      if newvma.vma_end ≤ cur.vma_start ∧ prev.vma_end ≤ newvma.vma_start then
        newvma :: cur :: rest
      else
        cur :: vmmap_insert_go newvma cur rest

/-- `vmmap_insert` (vmmap.c:130-182).  Empty list: insert at the head.
Otherwise the head element has no predecessor, so only
`new.end ≤ head.start` is required to insert first. -/
def vmmap_insert (m : List Vmarea) (newvma : Vmarea) : List Vmarea :=
  match m with
  | [] => [newvma]
  | cur :: rest =>
      if newvma.vma_end ≤ cur.vma_start then
        newvma :: cur :: rest
      else
        cur :: vmmap_insert_go newvma cur rest

/-- Forward-scan step of `vmmap_find_range` in the `LOHI` direction
(vmmap.c:208-230): with the previous area in hand, return `prev.end` at the
first gap `cur.start - prev.end ≥ npages`; at the end of the list try the
tail gap against `USER_PAGE_HIGH` (`UPH`). -/
def find_lohi_go (UPH npages : Nat) (prev : Vmarea) : List Vmarea → Int
  | [] => if npages ≤ u32sub UPH prev.vma_end then (prev.vma_end : Int) else -1
  | cur :: rest =>
      if npages ≤ u32sub cur.vma_start prev.vma_end then (prev.vma_end : Int)
      else find_lohi_go UPH npages cur rest

/-- Reverse-scan step of `vmmap_find_range` in the `HILO` direction
(vmmap.c:239-261), processing the reversed list: `next` is the successor (in
address order) of the current area; return `cur.end` at the first gap
`next.start - cur.end ≥ npages`; after the whole scan, accept VPN 0 if the
first area starts at or above `npages`, else fail with -1. -/
def find_hilo_go (npages : Nat) (next : Vmarea) : List Vmarea → Int
  | [] => if npages ≤ next.vma_start then 0 else -1
  | cur :: rest =>
      if npages ≤ u32sub next.vma_start cur.vma_end then (cur.vma_end : Int)
      else find_hilo_go npages cur rest

/-- `vmmap_find_range` (vmmap.c:191-265).  `UPH` is `USER_PAGE_HIGH`, the
number of user pages (a constant from headers outside `src/`, kept as a
parameter).  Direction `LOHI` (or 0) scans forward; anything else scans the
list in reverse, trying the tail gap `[last.end, UPH)` first. -/
def vmmap_find_range (UPH : Nat) (m : List Vmarea) (npages : Nat) (dir : Nat) : Int :=
  if dir = VMMAP_DIR_LOHI ∨ dir = 0 then
    match m with
    | [] => 0
    | cur :: rest =>
        if npages ≤ cur.vma_start then 0
        else find_lohi_go UPH npages cur rest
  else
    match m.reverse with
    | [] => (u32sub UPH npages : Int)
    | last :: rest =>
        if npages ≤ u32sub UPH last.vma_end then (last.vma_end : Int)
        else find_hilo_go npages last rest

/-- `vmmap_lookup` (vmmap.c:270-290): first area whose `[start, end)`
contains `vfn`, else `none`. -/
def vmmap_lookup (m : List Vmarea) (vfn : Nat) : Option Vmarea :=
  match m with
  | [] => none
  | vma :: rest =>
      if vma.vma_start ≤ vfn ∧ vfn < vma.vma_end then some vma
      else vmmap_lookup rest vfn

/-- `vmmap_is_range_empty` (vmmap.c:524-546): every area must satisfy
`start ≥ startvfn + npages` (computed in `uint32_t`) or `end ≤ startvfn`;
otherwise the range is reported non-empty (C returns 0, modelled `false`). -/
def vmmap_is_range_empty (m : List Vmarea) (startvfn npages : Nat) : Bool :=
  match m with
  | [] => true
  | vma :: rest =>
      if (startvfn + npages) % U32 ≤ vma.vma_start ∨ vma.vma_end ≤ startvfn then
        vmmap_is_range_empty rest startvfn npages
      else false

/-- The ordering invariant checked pairwise on adjacent areas:
`A.end ≤ B.start` whenever `A` immediately precedes `B`. -/
def vmarea_list_ordered : List Vmarea → Bool
  | [] => true
  | [_] => true
  | a :: b :: rest =>
      decide (a.vma_end ≤ b.vma_start) && vmarea_list_ordered (b :: rest)

/-- Case 2 of `vmmap_remove` (vmmap.c:490-492): if `start < lopage` and
`end ≤ hipage`, set `end := lopage`.  (The source does not additionally check
that the area overlaps the removed range.) -/
def remove_case2 (lopage hipage : Nat) (v : Vmarea) : Vmarea :=
  if v.vma_start < lopage ∧ v.vma_end ≤ hipage then { v with vma_end := lopage } else v

/-- Case 3 of `vmmap_remove` (vmmap.c:496-499): if `start ≥ lopage` and
`end > hipage`, set `off := hipage - start + off` (in `uint32_t`) and
`start := hipage`. -/
def remove_case3 (lopage hipage : Nat) (v : Vmarea) : Vmarea :=
  if lopage ≤ v.vma_start ∧ hipage < v.vma_end then
    { v with vma_off := (u32sub hipage v.vma_start + v.vma_off) % U32, vma_start := hipage }
  else v

/-- Case 4 of `vmmap_remove` (vmmap.c:503-509): if `start ≥ lopage` and
`end ≤ hipage`, release the area's object reference and unlink the area.
Returns the areas to keep at this position, and the updated refcounts. -/
def remove_case4 (lopage hipage : Nat) (v : Vmarea) (refs : Mmobj → Int) :
    List Vmarea × (Mmobj → Int) :=
  if lopage ≤ v.vma_start ∧ v.vma_end ≤ hipage then ([], refBump refs v.vma_obj (-1))
  else ([v], refs)

/-- One loop iteration of `vmmap_remove` (vmmap.c:459-510) on the current
area.  Case 1 (interior cut, vmmap.c:463-486) first allocates the left piece
— `allocOk na` is the outcome of the `na`-th `vmarea_alloc` call, `none`
models the `return -ENOSPC` path — copies `off`/`prot`/`flags`/`obj` into it,
takes a fresh reference on the object, links it before the current area, and
only then mutates the current area.  As in the source, the (possibly mutated)
area then falls through the case 2, 3 and 4 tests of the same iteration.
Result: areas emitted at this position, updated refcounts, next allocation
index. -/
def remove_body (lopage hipage : Nat) (allocOk : Nat → Bool) (vma : Vmarea)
    (refs : Mmobj → Int) (na : Nat) : Option (List Vmarea × (Mmobj → Int) × Nat) :=
  if vma.vma_start < lopage ∧ hipage < vma.vma_end then
    if allocOk na = true then
      let vma_new : Vmarea := { vma with vma_end := lopage }
      let refs1 := refBump refs vma.vma_obj 1
      let vma1 : Vmarea :=
        { vma with vma_off := (u32sub hipage vma.vma_start + vma.vma_off) % U32,
                   vma_start := hipage }
      let v3 := remove_case3 lopage hipage (remove_case2 lopage hipage vma1)
      let er := remove_case4 lopage hipage v3 refs1
      some (vma_new :: er.1, er.2, na + 1)
    else none
  else
    let v3 := remove_case3 lopage hipage (remove_case2 lopage hipage vma)
    let er := remove_case4 lopage hipage v3 refs
    some (er.1, er.2, na)

/-- The iteration of `vmmap_remove` over the area list.  `done` is the prefix
of the list already behind the cursor.  On a failed case-1 allocation the
source returns `-ENOSPC` leaving the list as mutated so far: the processed
prefix, the current (unmutated) area, and the untouched remainder. -/
def vmmap_remove_go (lopage hipage : Nat) (allocOk : Nat → Bool) :
    List Vmarea → List Vmarea → (Mmobj → Int) → Nat →
    Int × List Vmarea × (Mmobj → Int) × Nat
  | [], done, refs, na => (0, done, refs, na)
  | vma :: rest, done, refs, na =>
      match remove_body lopage hipage allocOk vma refs na with
      | none => (-ENOSPC, done ++ vma :: rest, refs, na)
      | some (em, refs1, na1) =>
          vmmap_remove_go lopage hipage allocOk rest (done ++ em) refs1 na1

/-- `vmmap_remove` (vmmap.c:446-518).  `hipage = lopage + npages` is computed
in `uint32_t`.  Returns the status, the resulting area list, the resulting
refcount state, and the number of `vmarea_alloc` calls made. -/
def vmmap_remove (lopage npages : Nat) (allocOk : Nat → Bool) (m : List Vmarea)
    (refs : Mmobj → Int) : Int × List Vmarea × (Mmobj → Int) × Nat :=
  vmmap_remove_go lopage ((lopage + npages) % U32) allocOk m [] refs 0

/-- The eager page-population loop of `vmmap_map` (vmmap.c:376-386):
`for (pagenum = lopage; pagenum < hipage; pagenum++)` calls
`lookuppage(anon, pagenum, 1, &pf)` and returns the first negative status.
`lp p w` is the oracle for `lookuppage` at page index `p` with `will_write`
flag `w` (the C `1` is modelled `true`); the loop runs `hipage - lopage`
times (zero when `hipage ≤ lopage`, as after a `uint32_t` wrap).  Returns
the trace of `(page index, will_write)` calls made and the final status. -/
def anon_loop (lp : Nat → Bool → Int) : Nat → Nat → List (Nat × Bool) × Int
  | _, 0 => ([], 0)
  | lo, n + 1 =>
      if lp lo true < 0 then ([(lo, true)], lp lo true)
      else
        let r := anon_loop lp (lo + 1) n
        ((lo, true) :: r.1, r.2)

/-- The tail of `vmmap_map` (vmmap.c:402-412): the `flags & MAP_PRIVATE` test
at vmmap.c:402 has an empty body in the source (no shadow object is ever
created), then the deferred `vmmap_remove` runs when `lopage` was
caller-chosen — its return value is ignored by the source — and the new area
is inserted.  Always returns status 0. -/
def vmmap_map_finish (rmAllocOk : Nat → Bool) (m : List Vmarea) (refs : Mmobj → Int)
    (lopage npages : Nat) (rm : Bool) (vma : Vmarea) (tr : List (Nat × Bool)) :
    Int × List Vmarea × (Mmobj → Int) × List (Nat × Bool) :=
  let r1 := if rm then vmmap_remove lopage npages rmAllocOk m refs else (0, m, refs, 0)
  (0, vmmap_insert r1.2.1 vma, r1.2.2.1, tr)

/-- The body of `vmmap_map` after the range is settled (vmmap.c:355-412).
`lopage` is the effective low page (caller-chosen or from the gap search),
`rm` records whether a deferred `vmmap_remove` is pending.  The area shell is
built with `off := 0` (vmmap.c:359 ignores the caller's `off`) and no object.
`file = none` is a NULL file: `anon_create` (oracle `anonOk`, producing
`Mmobj.anon anonId` with one strong reference) then the eager `lookuppage`
loop.  `file = some r` models a vnode whose `mmap` callback returns `r`; on
success the returned object is *discarded* — the source never assigns
`vma_obj` on this path. -/
def vmmap_map_body (anonOk : Bool) (anonId : Nat) (lp : Nat → Bool → Int)
    (rmAllocOk : Nat → Bool) (m : List Vmarea) (refs : Mmobj → Int)
    (file : Option (Except Int Mmobj)) (lopage npages : Nat) (prot : Int)
    (flags : Nat) (rm : Bool) :
    Int × List Vmarea × (Mmobj → Int) × List (Nat × Bool) :=
  let hipage := (lopage + npages) % U32
  let vma_result : Vmarea :=
    { vma_start := lopage, vma_end := hipage, vma_off := 0,
      vma_prot := prot, vma_flags := flags, vma_obj := none }
  match file with
  | none =>
      if anonOk = false then (-ENOSPC, m, refs, [])
      else
        let obj := Mmobj.anon anonId
        let refs1 : Mmobj → Int := fun x => if x = obj then 1 else refs x
        let al := anon_loop lp lopage (hipage - lopage)
        if al.2 < 0 then (al.2, m, refs1, al.1)
        else
          vmmap_map_finish rmAllocOk m refs1 lopage npages rm
            { vma_result with vma_obj := some obj } al.1
  | some mret =>
      match mret with
      | .error e => (e, m, refs, [])
      | .ok _ => vmmap_map_finish rmAllocOk m refs lopage npages rm vma_result []

/-- `vmmap_map` (vmmap.c:328-415).  Oracles: `areaAllocOk` is the outcome of
the up-front `vmarea_alloc` (vmmap.c:335), `anonOk`/`anonId` describe
`anon_create`, `lp` is `lookuppage`, `rmAllocOk` feeds the allocations of the
deferred `vmmap_remove`, `file` models the vnode `mmap` callback result.
When `lopage = 0` the gap search chooses the range (a negative result returns
`-1`, vmmap.c:347) and no removal is deferred; otherwise the caller-chosen
range is cleared later.  Returns status, new area list, refcounts, and the
trace of `lookuppage` calls. -/
def vmmap_map (UPH : Nat) (areaAllocOk anonOk : Bool) (anonId : Nat)
    (lp : Nat → Bool → Int) (rmAllocOk : Nat → Bool) (m : List Vmarea)
    (refs : Mmobj → Int) (file : Option (Except Int Mmobj)) (lopage npages : Nat)
    (prot : Int) (flags : Nat) (off : Nat) (dir : Nat) :
    Int × List Vmarea × (Mmobj → Int) × List (Nat × Bool) :=
  if areaAllocOk = false then (-ENOSPC, m, refs, [])
  else if lopage = 0 then
    if vmmap_find_range UPH m npages dir < 0 then (-1, m, refs, [])
    else
      vmmap_map_body anonOk anonId lp rmAllocOk m refs file
        (vmmap_find_range UPH m npages dir).toNat npages prot flags false
  else vmmap_map_body anonOk anonId lp rmAllocOk m refs file lopage npages prot flags true

/-! ## Concrete inputs used by the counterexample and code-bug theorems -/

/-- The spec's scenario map: regions `[10,20)` and `[30,40)` (USER_PAGES = 1024). -/
def mapTwoRegions : List Vmarea :=
  [⟨10, 20, 0, 0, 0, some (Mmobj.anon 0)⟩, ⟨30, 40, 0, 0, 0, some (Mmobj.anon 0)⟩]

/-- A map with a `PRIVATE` region `[105,115)` backed by an anonymous object,
as in the spec's scenario 4. -/
def mapPriv : List Vmarea := [⟨105, 115, 0, 0, MAP_PRIVATE, some (Mmobj.anon 5)⟩]

/-- An ordered two-region map `[0,5)`, `[7,20)`. -/
def mapBelowAcross : List Vmarea :=
  [⟨0, 5, 0, 0, 0, some (Mmobj.anon 1)⟩, ⟨7, 20, 0, 0, 0, some (Mmobj.anon 2)⟩]

/-- A one-region map `[10,20)`. -/
def mapOneRegion : List Vmarea := [⟨10, 20, 0, 0, 0, some (Mmobj.anon 0)⟩]

/-! ## Claim theorems -/

/-- C1: the spec claims `find_gap(npages, HIGH_TO_LOW)` returns the highest
VPN `g` with `[g, g+npages)` inside a gap — in particular `USER_PAGES −
npages` when the tail gap admits `npages`.  The source instead returns the
*low* end of the highest fitting gap: on the map `[10,20), [30,40)` with
`USER_PAGES = 1024` and `npages = 5` it returns `40`, although `[1019,1024)`
is empty and within bounds, so the highest fitting VPN is `1019`, not `40`. -/
theorem find_range_hilo_returns_gap_bottom :
    vmmap_find_range 1024 mapTwoRegions 5 VMMAP_DIR_HILO = 40 ∧
    vmmap_is_range_empty mapTwoRegions 1019 5 = true ∧
    1019 + 5 ≤ 1024 ∧ (40 : Int) ≠ 1019 := by decide

/-- C2: the spec claims a `PRIVATE` mapping gets a freshly created shadow
object over the acquired base object.  The source's `flags & MAP_PRIVATE`
branch (vmmap.c:402-404) is empty: mapping `[100,110)` with `PRIVATE` over
`mapPriv` succeeds, trims `[105,115)` to `[110,115)`, but the inserted
region's object is the plain anonymous object — not a shadow. -/
theorem map_private_creates_no_shadow :
    (vmmap_map 1024 true true 0 (fun _ _ => 0) (fun _ => true) mapPriv (fun _ => 1)
        none 100 10 0 MAP_PRIVATE 0 VMMAP_DIR_HILO).2.1 =
      [⟨100, 110, 0, 0, MAP_PRIVATE, some (Mmobj.anon 0)⟩,
       ⟨110, 115, 5, 0, MAP_PRIVATE, some (Mmobj.anon 5)⟩] ∧
    Mmobj.isShadow (Mmobj.anon 0) = false := by decide

/-- C5: the spec claims the ordering invariant `A.end ≤ B.start` holds after
every `remove`.  The source applies the case 2/3 mutations without checking
that the area overlaps the removed range: `remove(10, 5)` on the ordered map
`[0,5), [7,20)` *grows* `[0,5)` to `[0,10)` (case 2) while splitting
`[7,20)` into `[7,10)` and `[15,20)` (case 1), producing the unordered list
`[0,10), [7,10), [15,20)`. -/
theorem remove_breaks_ordering :
    vmarea_list_ordered mapBelowAcross = true ∧
    (vmmap_remove 10 5 (fun _ => true) mapBelowAcross (fun _ => 1)).1 = 0 ∧
    (vmmap_remove 10 5 (fun _ => true) mapBelowAcross (fun _ => 1)).2.1 =
      [⟨0, 10, 0, 0, 0, some (Mmobj.anon 1)⟩, ⟨7, 10, 0, 0, 0, some (Mmobj.anon 2)⟩,
       ⟨15, 20, 8, 0, 0, some (Mmobj.anon 2)⟩] ∧
    vmarea_list_ordered
      (vmmap_remove 10 5 (fun _ => true) mapBelowAcross (fun _ => 1)).2.1 = false := by
  decide

/-- C9: the spec claims that on the vnode path the object returned by the
`mmap` callback is stored as the new region's `obj` before insertion.  The
source discards `mmobj_ret` (vmmap.c:394-399) and never assigns `vma_obj`:
mapping `[100,101)` over a vnode whose callback returns the object `vn 7`
inserts a region whose object field was never set. -/
theorem map_vnode_object_dropped :
    (vmmap_map 1024 true true 0 (fun _ _ => 0) (fun _ => true) [] (fun _ => 0)
        (some (Except.ok (Mmobj.vn 7))) 100 1 0 0 0 VMMAP_DIR_HILO).2.1 =
      [⟨100, 101, 0, 0, 0, none⟩] ∧
    (none : Option Mmobj) ≠ some (Mmobj.vn 7) := by decide

/-- C6 counterexample: the claim includes `n = 0`, but on the map `[10,20)`
with `s = 15`, `n = 0` the source reports the (vacuously unmapped) empty
range `[15,15)` as *not* empty, while `lookup` is `none` for every `v` in
the empty range. -/
theorem is_range_empty_zero_pages_cex :
    vmmap_is_range_empty mapOneRegion 15 0 = false ∧
    ((List.range 0).all fun i => (vmmap_lookup mapOneRegion (15 + i)).isNone) = true := by
  decide

/-- `vmmap_lookup` returns `none` exactly when no area of the map contains
the page number. -/
theorem vmmap_lookup_eq_none_iff (m : List Vmarea) (v : Nat) :
    vmmap_lookup m v = none ↔
      ∀ vma ∈ m, ¬(vma.vma_start ≤ v ∧ v < vma.vma_end) := by
  induction m with
  | nil => simp [vmmap_lookup]
  | cons vma rest ih =>
      by_cases h : vma.vma_start ≤ v ∧ v < vma.vma_end
      · simp [vmmap_lookup, h]
      · simp only [vmmap_lookup, if_neg h, List.forall_mem_cons, ih]
        simp [h]

/-- `vmmap_is_range_empty` is the conjunction, over all areas, of the
source's per-area disjointness test (provided `s + n` does not wrap). -/
theorem vmmap_is_range_empty_iff (m : List Vmarea) (s n : Nat) (hs : s + n < U32) :
    vmmap_is_range_empty m s n = true ↔
      ∀ vma ∈ m, s + n ≤ vma.vma_start ∨ vma.vma_end ≤ s := by
  have hmod : (s + n) % U32 = s + n := Nat.mod_eq_of_lt hs
  induction m with
  | nil => simp [vmmap_is_range_empty]
  | cons vma rest ih =>
      by_cases h : s + n ≤ vma.vma_start ∨ vma.vma_end ≤ s
      · simp only [vmmap_is_range_empty, hmod, if_pos h, List.forall_mem_cons]
        simp [h, ih]
      · simp only [vmmap_is_range_empty, hmod, if_neg h, List.forall_mem_cons]
        simp [h]

/-- C6 (amended): for every map whose areas satisfy `start < end` and every
`npages ≥ 1` (with `s + n` below `2^32`), `is_empty_range(s, n)` returns
true iff `lookup(v)` returns `none` for every VPN `v ∈ [s, s+n)`.  (The
original claim also demanded this at `n = 0`, where it fails; see the
counterexample.) -/
theorem is_range_empty_iff_lookup_none (m : List Vmarea) (s n : Nat)
    (hwf : ∀ vma ∈ m, vma.vma_start < vma.vma_end) (hn : 1 ≤ n)
    (hs : s + n < U32) :
    vmmap_is_range_empty m s n = true ↔
      ∀ v, s ≤ v → v < s + n → vmmap_lookup m v = none := by
  rw [vmmap_is_range_empty_iff m s n hs]
  constructor
  · intro h v hv1 hv2
    rw [vmmap_lookup_eq_none_iff]
    rintro vma hm ⟨hc1, hc2⟩
    rcases h vma hm with h3 | h3 <;> omega
  · intro h vma hm
    by_contra hc
    push_neg at hc
    obtain ⟨h1, h2⟩ := hc
    have hv := hwf vma hm
    rcases Nat.le_total vma.vma_start s with hle | hle
    · have hs' := h s (Nat.le_refl s) (by omega)
      rw [vmmap_lookup_eq_none_iff] at hs'
      exact hs' vma hm ⟨hle, by omega⟩
    · have hs' := h vma.vma_start hle (by omega)
      rw [vmmap_lookup_eq_none_iff] at hs'
      exact hs' vma hm ⟨Nat.le_refl _, by omega⟩

/-- Witness for C6: the amended equivalence applied to the spec's scenario 5
(map `[10,20)`, query `[20, 25)`), in the direction that concludes the
emptiness test from the pointwise lookups. -/
theorem is_range_empty_iff_lookup_none_witness :
    vmmap_is_range_empty mapOneRegion 20 5 = true :=
  (is_range_empty_iff_lookup_none mapOneRegion 20 5 (by decide) (by decide)
      (by decide)).mpr
    (by
      intro v h1 h2
      have hv : v = 20 ∨ v = 21 ∨ v = 22 ∨ v = 23 ∨ v = 24 := by omega
      rcases hv with h | h | h | h | h <;> subst h <;> decide)

/-- `uint32_t` subtraction agrees with `Nat` subtraction when it cannot
wrap. -/
theorem u32sub_eq_sub (a b : Nat) (hba : b ≤ a) (ha : a < U32) :
    u32sub a b = a - b := by
  simp only [u32sub, U32] at *
  omega

/-- One iteration of `vmmap_remove` on an interior-cut area whose left-piece
allocation succeeds: the left piece `[V.start, lopage)` is emitted (copying
`off`, `prot`, `flags`, `obj`), a fresh reference is taken on the shared
object, and `V` is mutated to `[hipage, V.end)` with `off` advanced by
`hipage - V.start`; the case 2/3/4 tests that the source then re-runs on the
mutated `V` in the same iteration leave it unchanged. -/
theorem remove_body_interior (lopage hipage : Nat) (allocOk : Nat → Bool) (V : Vmarea)
    (refs : Mmobj → Int) (na : Nat) (o : Mmobj)
    (h1 : V.vma_start < lopage) (h2 : hipage < V.vma_end) (hlh : lopage ≤ hipage)
    (h3 : allocOk na = true) (h4 : V.vma_obj = some o) (h5 : hipage + V.vma_off < U32) :
    remove_body lopage hipage allocOk V refs na =
      some ([{ vma_start := V.vma_start, vma_end := lopage, vma_off := V.vma_off,
               vma_prot := V.vma_prot, vma_flags := V.vma_flags, vma_obj := some o },
             { vma_start := hipage, vma_end := V.vma_end,
               vma_off := hipage - V.vma_start + V.vma_off,
               vma_prot := V.vma_prot, vma_flags := V.vma_flags, vma_obj := some o }],
            refBump refs (some o) 1, na + 1) := by
  have hU : U32 = 4294967296 := rfl
  have hsub : u32sub hipage V.vma_start = hipage - V.vma_start :=
    u32sub_eq_sub _ _ (by omega) (by omega)
  have hself : u32sub hipage hipage = 0 := by
    simp only [u32sub, U32]; omega
  have hoff : (hipage - V.vma_start + V.vma_off) % U32 =
      hipage - V.vma_start + V.vma_off := Nat.mod_eq_of_lt (by omega)
  have hn2 : ¬ hipage < lopage := by omega
  have hn4 : ¬ V.vma_end ≤ hipage := by omega
  simp [remove_body, remove_case2, remove_case3, remove_case4, h1, h2, h3, h4,
    hlh, hn2, hn4, hsub, hself, hoff]

/-- C3: when `remove(lopage, npages)` reaches an interior-cut area `V`
(`V.start < lopage` and `V.end > lopage + npages`) and the split allocation
succeeds, the iteration replaces `V` by the adjacent pair
`[V.start, lopage)` (copying `off`, `prot`, `flags`, `obj`, with a fresh
strong reference) immediately followed by the mutated `V` with
`off += lopage + npages - V.start`, `start := lopage + npages`, and the same
object; the object's reference count grows by exactly one. -/
theorem remove_interior_cut (lopage npages : Nat) (allocOk : Nat → Bool) (V : Vmarea)
    (rest done : List Vmarea) (refs : Mmobj → Int) (na : Nat) (o : Mmobj)
    (h1 : V.vma_start < lopage) (h2 : lopage + npages < V.vma_end)
    (h3 : allocOk na = true) (h4 : V.vma_obj = some o)
    (h5 : lopage + npages + V.vma_off < U32) :
    vmmap_remove_go lopage (lopage + npages) allocOk (V :: rest) done refs na =
      vmmap_remove_go lopage (lopage + npages) allocOk rest
        (done ++
          [{ vma_start := V.vma_start, vma_end := lopage, vma_off := V.vma_off,
             vma_prot := V.vma_prot, vma_flags := V.vma_flags, vma_obj := some o },
           { vma_start := lopage + npages, vma_end := V.vma_end,
             vma_off := lopage + npages - V.vma_start + V.vma_off,
             vma_prot := V.vma_prot, vma_flags := V.vma_flags, vma_obj := some o }])
        (refBump refs (some o) 1) (na + 1) ∧
    refBump refs (some o) 1 o = refs o + 1 := by
  constructor
  · simp only [vmmap_remove_go,
      remove_body_interior lopage (lopage + npages) allocOk V refs na o h1 h2
        (Nat.le_add_right _ _) h3 h4 h5]
  · simp [refBump]

/-- Witness for C3: the spec's scenario 3 — region `[100,200)` with `off = 7`
and object `anon 0`, `remove(120, 30)` — yields the pair `[100,120)` with
`off = 7` and `[150,200)` with `off = 57`, both on `anon 0`, whose reference
count grows from 1 to 2. -/
theorem remove_interior_cut_witness :
    vmmap_remove_go 120 150 (fun _ => true)
        [⟨100, 200, 7, 0, 0, some (Mmobj.anon 0)⟩] [] (fun _ => 1) 0 =
      vmmap_remove_go 120 150 (fun _ => true) []
        ([⟨100, 120, 7, 0, 0, some (Mmobj.anon 0)⟩,
          ⟨150, 200, 57, 0, 0, some (Mmobj.anon 0)⟩])
        (refBump (fun _ => 1) (some (Mmobj.anon 0)) 1) 1 ∧
    refBump (fun _ => 1) (some (Mmobj.anon 0)) 1 (Mmobj.anon 0) = 1 + 1 :=
  remove_interior_cut 120 30 (fun _ => true) ⟨100, 200, 7, 0, 0, some (Mmobj.anon 0)⟩
    [] [] (fun _ => 1) 0 (Mmobj.anon 0) (by decide) (by decide) rfl rfl (by decide)

/-- With an always-succeeding allocator, every iteration of `vmmap_remove`
produces a result (the source has no other failing operation). -/
theorem remove_body_allocTrue_isSome (lopage hipage : Nat) (vma : Vmarea)
    (refs : Mmobj → Int) (na : Nat) :
    (remove_body lopage hipage (fun _ => true) vma refs na).isSome := by
  simp only [remove_body]
  split <;> simp

/-- With an always-succeeding allocator, `vmmap_remove`'s iteration always
returns status 0. -/
theorem vmmap_remove_go_allocTrue_status (lopage hipage : Nat) :
    ∀ (m done : List Vmarea) (refs : Mmobj → Int) (na : Nat),
      (vmmap_remove_go lopage hipage (fun _ => true) m done refs na).1 = 0 := by
  intro m
  induction m with
  | nil => intro done refs na; rfl
  | cons vma rest ih =>
      intro done refs na
      have hs := remove_body_allocTrue_isSome lopage hipage vma refs na
      rcases ho : remove_body lopage hipage (fun _ => true) vma refs na with _ | ⟨em, refs1, na1⟩
      · rw [ho] at hs; simp at hs
      · simp only [vmmap_remove_go, ho]
        exact ih _ _ _

/-- C7: (1) when every allocation succeeds, `remove` always returns 0 — the
split allocation in the interior-cut case is the only operation that can
fail; (2) when the iteration reaches an interior-cut area `V` and that
allocation fails, `remove` returns `-ENOSPC` with `V` unmutated in place,
the transformations already applied to earlier areas still committed, and
the remaining areas untouched. -/
theorem remove_failure_model :
    (∀ (lopage npages : Nat) (m : List Vmarea) (refs : Mmobj → Int),
        (vmmap_remove lopage npages (fun _ => true) m refs).1 = 0) ∧
    (∀ (lopage hipage : Nat) (allocOk : Nat → Bool) (V : Vmarea)
        (rest done : List Vmarea) (refs : Mmobj → Int) (na : Nat),
        V.vma_start < lopage → hipage < V.vma_end → allocOk na = false →
        vmmap_remove_go lopage hipage allocOk (V :: rest) done refs na =
          (-ENOSPC, done ++ V :: rest, refs, na)) := by
  constructor
  · intro lopage npages m refs
    exact vmmap_remove_go_allocTrue_status _ _ m [] refs 0
  · intro lopage hipage allocOk V rest done refs na h1 h2 h3
    simp only [vmmap_remove_go, remove_body, if_pos (And.intro h1 h2), h3]
    simp

/-- Witness for C7: part 1 on the two-region map with `remove(10, 5)`, and
part 2 on the interior cut of `[100,200)` by `remove`-range `[120,150)` with
a failing allocator: the result is `-ENOSPC` with the map untouched. -/
theorem remove_failure_model_witness :
    (vmmap_remove 10 5 (fun _ => true) mapBelowAcross (fun _ => 1)).1 = 0 ∧
    vmmap_remove_go 120 150 (fun _ => false)
        [⟨100, 200, 7, 0, 0, some (Mmobj.anon 0)⟩] [] (fun _ => 1) 0 =
      (-ENOSPC, [⟨100, 200, 7, 0, 0, some (Mmobj.anon 0)⟩], fun _ => 1, 0) :=
  ⟨remove_failure_model.1 10 5 mapBelowAcross (fun _ => 1),
   remove_failure_model.2 120 150 (fun _ => false)
     ⟨100, 200, 7, 0, 0, some (Mmobj.anon 0)⟩ [] [] (fun _ => 1) 0
     (by decide) (by decide) rfl⟩

/-- The tail of `vmmap_map` always reports success (the source ignores the
return value of the deferred `vmmap_remove` and `vmmap_insert` cannot
fail). -/
theorem vmmap_map_finish_status (rmAllocOk : Nat → Bool) (m : List Vmarea)
    (refs : Mmobj → Int) (lopage npages : Nat) (rm : Bool) (vma : Vmarea)
    (tr : List (Nat × Bool)) :
    (vmmap_map_finish rmAllocOk m refs lopage npages rm vma tr).1 = 0 := rfl

/-- If the body of `vmmap_map` returns a nonzero status, the area list is
returned unchanged. -/
theorem vmmap_map_body_error_eq (anonOk : Bool) (anonId : Nat)
    (lp : Nat → Bool → Int) (rmAllocOk : Nat → Bool) (m : List Vmarea)
    (refs : Mmobj → Int) (file : Option (Except Int Mmobj)) (lopage npages : Nat)
    (prot : Int) (flags : Nat) (rm : Bool)
    (h : (vmmap_map_body anonOk anonId lp rmAllocOk m refs file lopage npages
            prot flags rm).1 ≠ 0) :
    (vmmap_map_body anonOk anonId lp rmAllocOk m refs file lopage npages
        prot flags rm).2.1 = m := by
  cases file with
  | none =>
      simp only [vmmap_map_body] at h ⊢
      by_cases ha : anonOk = false
      · rw [if_pos ha]
      · rw [if_neg ha] at h ⊢
        by_cases hl :
            (anon_loop lp lopage ((lopage + npages) % U32 - lopage)).2 < 0
        · rw [if_pos hl]
        · rw [if_neg hl] at h ⊢
          exact absurd (vmmap_map_finish_status _ _ _ _ _ _ _ _) h
  | some mret =>
      cases mret with
      | error e => simp only [vmmap_map_body]
      | ok obj =>
          simp only [vmmap_map_body] at h
          exact absurd (vmmap_map_finish_status _ _ _ _ _ _ _ _) h

/-- C4: if `vmmap_map` returns an error — from the up-front area allocation,
the gap search, the anonymous-object creation, the eager page lookups, or
the vnode `mmap` callback — the map's region sequence is exactly as before
the call: every error return in the source precedes the deferred
`vmmap_remove` and the `vmmap_insert`. -/
theorem map_error_leaves_map (UPH : Nat) (areaAllocOk anonOk : Bool) (anonId : Nat)
    (lp : Nat → Bool → Int) (rmAllocOk : Nat → Bool) (m : List Vmarea)
    (refs : Mmobj → Int) (file : Option (Except Int Mmobj)) (lopage npages : Nat)
    (prot : Int) (flags : Nat) (off : Nat) (dir : Nat)
    (h : (vmmap_map UPH areaAllocOk anonOk anonId lp rmAllocOk m refs file lopage
            npages prot flags off dir).1 ≠ 0) :
    (vmmap_map UPH areaAllocOk anonOk anonId lp rmAllocOk m refs file lopage
        npages prot flags off dir).2.1 = m := by
  simp only [vmmap_map] at h ⊢
  by_cases ha : areaAllocOk = false
  · rw [if_pos ha]
  · rw [if_neg ha] at h ⊢
    by_cases hl : lopage = 0
    · rw [if_pos hl] at h ⊢
      by_cases hf : vmmap_find_range UPH m npages dir < 0
      · rw [if_pos hf]
      · rw [if_neg hf] at h ⊢
        exact vmmap_map_body_error_eq _ _ _ _ _ _ _ _ _ _ _ _ h
    · rw [if_neg hl] at h ⊢
      exact vmmap_map_body_error_eq _ _ _ _ _ _ _ _ _ _ _ _ h

/-- Witness for C4: a failing up-front area allocation returns `-ENOSPC` and
leaves the one-region map exactly as it was. -/
theorem map_error_leaves_map_witness :
    (vmmap_map 1024 false true 0 (fun _ _ => 0) (fun _ => true) mapOneRegion
        (fun _ => 0) none 100 3 0 0 0 VMMAP_DIR_HILO).1 ≠ 0 ∧
    (vmmap_map 1024 false true 0 (fun _ _ => 0) (fun _ => true) mapOneRegion
        (fun _ => 0) none 100 3 0 0 0 VMMAP_DIR_HILO).2.1 = mapOneRegion :=
  ⟨by decide,
   map_error_leaves_map 1024 false true 0 (fun _ _ => 0) (fun _ => true)
     mapOneRegion (fun _ => 0) none 100 3 0 0 0 VMMAP_DIR_HILO (by decide)⟩

/-- When every `lookuppage` call succeeds, the eager loop visits exactly the
page indices `[lo, lo+n)` in order, each with `will_write`, and returns
status 0. -/
theorem anon_loop_all_ok (lp : Nat → Bool → Int) (lo n : Nat)
    (h : ∀ i, i < n → 0 ≤ lp (lo + i) true) :
    anon_loop lp lo n = ((List.range' lo n).map (fun p => (p, true)), 0) := by
  induction n generalizing lo with
  | zero => simp [anon_loop]
  | succ n ih =>
      have h0 : (0 : Int) ≤ lp lo true := by simpa using h 0 (Nat.succ_pos n)
      have h0' : ¬ lp lo true < 0 := by omega
      have hsh : ∀ i, i < n → 0 ≤ lp (lo + 1 + i) true := by
        intro i hi
        have hh := h (i + 1) (by omega)
        have e : lo + (i + 1) = lo + 1 + i := by omega
        rwa [e] at hh
      simp only [anon_loop, if_neg h0']
      rw [ih (lo + 1) hsh]
      simp [List.range'_succ]

/-- When the first failing `lookuppage` call is the one at index `lo + k`,
the eager loop visits exactly `[lo, lo+k]` and returns that call's (negative)
status. -/
theorem anon_loop_first_err (lp : Nat → Bool → Int) (k : Nat) :
    ∀ (lo n : Nat), (∀ j, j < k → 0 ≤ lp (lo + j) true) →
      lp (lo + k) true < 0 → k < n →
      anon_loop lp lo n =
        ((List.range' lo (k + 1)).map (fun p => (p, true)), lp (lo + k) true) := by
  induction k with
  | zero =>
      intro lo n h1 h2 h3
      cases n with
      | zero => omega
      | succ n =>
          have h2' : lp lo true < 0 := by simpa using h2
          simp only [anon_loop, if_pos h2']
          simp
  | succ k ih =>
      intro lo n h1 h2 h3
      cases n with
      | zero => omega
      | succ n =>
          have h0 : (0 : Int) ≤ lp lo true := by simpa using h1 0 (Nat.succ_pos k)
          have h0' : ¬ lp lo true < 0 := by omega
          have h1' : ∀ j, j < k → 0 ≤ lp (lo + 1 + j) true := by
            intro j hj
            have hh := h1 (j + 1) (by omega)
            have e : lo + (j + 1) = lo + 1 + j := by omega
            rwa [e] at hh
          have h2' : lp (lo + 1 + k) true < 0 := by
            have e : lo + (k + 1) = lo + 1 + k := by omega
            rwa [e] at h2
          have e : lo + (k + 1) = lo + 1 + k := by omega
          simp only [anon_loop, if_neg h0']
          rw [ih (lo + 1) n h1' h2' (by omega), e]
          simp [List.range'_succ]

/-- On the anonymous path (`file = NULL`, caller-chosen `lopage`, successful
up-front allocations), `vmmap_map` reduces to the eager page loop followed —
on loop success — by the deferred removal and the insertion. -/
theorem vmmap_map_none_eq (UPH : Nat) (anonId : Nat) (lp : Nat → Bool → Int)
    (rmAllocOk : Nat → Bool) (m : List Vmarea) (refs : Mmobj → Int)
    (lopage npages : Nat) (prot : Int) (flags : Nat) (off : Nat) (dir : Nat)
    (h0 : lopage ≠ 0) (hW : lopage + npages < U32) :
    vmmap_map UPH true true anonId lp rmAllocOk m refs none lopage npages prot
        flags off dir =
      (if (anon_loop lp lopage npages).2 < 0 then
        ((anon_loop lp lopage npages).2, m,
         fun x => if x = Mmobj.anon anonId then 1 else refs x,
         (anon_loop lp lopage npages).1)
      else
        vmmap_map_finish rmAllocOk m
          (fun x => if x = Mmobj.anon anonId then 1 else refs x) lopage npages
          true ⟨lopage, lopage + npages, 0, prot, flags, some (Mmobj.anon anonId)⟩
          (anon_loop lp lopage npages).1) := by
  have hmod : (lopage + npages) % U32 = lopage + npages := Nat.mod_eq_of_lt hW
  simp only [vmmap_map, vmmap_map_body, hmod, if_neg h0, Nat.add_sub_cancel_left]
  rw [if_neg (show ¬(true = false) by decide), if_neg (show ¬(true = false) by decide)]

/-- C10: on the anonymous path with a caller-chosen `lopage`, `vmmap_map`
eagerly calls `lookuppage` with `will_write` on the fresh anonymous object
for every page number in `[lopage, lopage + npages)` — using the absolute
VPN, independent of `off`, as the object page index; and if the lookup at
`lopage + k` is the first to fail, its status is returned with the map's
region sequence unchanged (no region inserted), the loop having visited
exactly `[lopage, lopage + k]`. -/
theorem map_anon_eager_lookups :
    (∀ (UPH anonId : Nat) (lp : Nat → Bool → Int) (rmAllocOk : Nat → Bool)
        (m : List Vmarea) (refs : Mmobj → Int) (lopage npages : Nat) (prot : Int)
        (flags off dir : Nat),
        lopage ≠ 0 → lopage + npages < U32 →
        (∀ i, i < npages → 0 ≤ lp (lopage + i) true) →
        (vmmap_map UPH true true anonId lp rmAllocOk m refs none lopage npages
            prot flags off dir).2.2.2 =
          (List.range' lopage npages).map (fun p => (p, true)) ∧
        (vmmap_map UPH true true anonId lp rmAllocOk m refs none lopage npages
            prot flags off dir).1 = 0) ∧
    (∀ (UPH anonId : Nat) (lp : Nat → Bool → Int) (rmAllocOk : Nat → Bool)
        (m : List Vmarea) (refs : Mmobj → Int) (lopage npages : Nat) (prot : Int)
        (flags off dir : Nat) (k : Nat),
        lopage ≠ 0 → lopage + npages < U32 → k < npages →
        (∀ j, j < k → 0 ≤ lp (lopage + j) true) → lp (lopage + k) true < 0 →
        (vmmap_map UPH true true anonId lp rmAllocOk m refs none lopage npages
            prot flags off dir).1 = lp (lopage + k) true ∧
        (vmmap_map UPH true true anonId lp rmAllocOk m refs none lopage npages
            prot flags off dir).2.1 = m ∧
        (vmmap_map UPH true true anonId lp rmAllocOk m refs none lopage npages
            prot flags off dir).2.2.2 =
          (List.range' lopage (k + 1)).map (fun p => (p, true))) := by
  constructor
  · intro UPH anonId lp rmAllocOk m refs lopage npages prot flags off dir h0 hW hok
    rw [vmmap_map_none_eq UPH anonId lp rmAllocOk m refs lopage npages prot flags
        off dir h0 hW, anon_loop_all_ok lp lopage npages hok]
    simp [vmmap_map_finish]
  · intro UPH anonId lp rmAllocOk m refs lopage npages prot flags off dir k h0 hW
      hk h1 h2
    rw [vmmap_map_none_eq UPH anonId lp rmAllocOk m refs lopage npages prot flags
        off dir h0 hW, anon_loop_first_err lp k lopage npages h1 h2 hk]
    simp [h2]

/-- Witness for C10: on the empty map, mapping 3 anonymous pages at
`lopage = 100` with all lookups succeeding traces pages 100, 101, 102 with
`will_write`; with the lookup at 101 failing with status −5, `vmmap_map`
returns −5 on the untouched map having traced pages 100 and 101. -/
theorem map_anon_eager_lookups_witness :
    ((vmmap_map 1024 true true 0 (fun _ _ => 0) (fun _ => true) [] (fun _ => 0)
        none 100 3 0 0 0 VMMAP_DIR_HILO).2.2.2 =
      (List.range' 100 3).map (fun p => (p, true)) ∧
     (vmmap_map 1024 true true 0 (fun _ _ => 0) (fun _ => true) [] (fun _ => 0)
        none 100 3 0 0 0 VMMAP_DIR_HILO).1 = 0) ∧
    ((vmmap_map 1024 true true 0 (fun p _ => if p = 101 then -5 else 0)
        (fun _ => true) mapOneRegion (fun _ => 0) none 100 3 0 0 0
        VMMAP_DIR_HILO).1 = (fun p (_ : Bool) => if p = 101 then (-5 : Int) else 0) (100 + 1) true ∧
     (vmmap_map 1024 true true 0 (fun p _ => if p = 101 then -5 else 0)
        (fun _ => true) mapOneRegion (fun _ => 0) none 100 3 0 0 0
        VMMAP_DIR_HILO).2.1 = mapOneRegion ∧
     (vmmap_map 1024 true true 0 (fun p _ => if p = 101 then -5 else 0)
        (fun _ => true) mapOneRegion (fun _ => 0) none 100 3 0 0 0
        VMMAP_DIR_HILO).2.2.2 =
       (List.range' 100 (1 + 1)).map (fun p => (p, true))) :=
  ⟨map_anon_eager_lookups.1 1024 0 (fun _ _ => 0) (fun _ => true) [] (fun _ => 0)
     100 3 0 0 0 VMMAP_DIR_HILO (by decide) (by decide) (fun i _ => le_refl 0),
   map_anon_eager_lookups.2 1024 0 (fun p _ => if p = 101 then -5 else 0)
     (fun _ => true) mapOneRegion (fun _ => 0) 100 3 0 0 0 VMMAP_DIR_HILO 1
     (by decide) (by decide) (by decide)
     (fun j hj => by
       have hj0 : j = 0 := by omega
       subst hj0
       decide)
     (by decide)⟩

/-- C8 (amended): `map` allocates the new region shell with
`start = lopage`, `end = lopage + npages` and the requested `prot` and
`flags`, but with `off = 0` — the caller-supplied `off` argument is ignored
(vmmap.c:359).  Shown on the anonymous path: the resulting map is exactly
the insertion of that region (carrying the fresh anonymous object) into the
map left by the deferred removal. -/
theorem map_shell_fields (UPH : Nat) (anonId : Nat) (lp : Nat → Bool → Int)
    (rmAllocOk : Nat → Bool) (m : List Vmarea) (refs : Mmobj → Int)
    (lopage npages : Nat) (prot : Int) (flags : Nat) (off : Nat) (dir : Nat)
    (h0 : lopage ≠ 0) (hW : lopage + npages < U32)
    (hok : ∀ i, i < npages → 0 ≤ lp (lopage + i) true) :
    (vmmap_map UPH true true anonId lp rmAllocOk m refs none lopage npages prot
        flags off dir).2.1 =
      vmmap_insert
        (vmmap_remove lopage npages rmAllocOk m
          (fun x => if x = Mmobj.anon anonId then 1 else refs x)).2.1
        ⟨lopage, lopage + npages, 0, prot, flags, some (Mmobj.anon anonId)⟩ := by
  rw [vmmap_map_none_eq UPH anonId lp rmAllocOk m refs lopage npages prot flags
      off dir h0 hW, anon_loop_all_ok lp lopage npages hok]
  simp [vmmap_map_finish]

/-- Witness for C8: mapping 2 pages at `lopage = 100` with `prot = 3`,
`flags = 2` and caller offset `off = 4096` on the empty map inserts the
region `[100,102)` with the requested `prot`/`flags` and `off = 0`. -/
theorem map_shell_fields_witness :
    (vmmap_map 1024 true true 0 (fun _ _ => 0) (fun _ => true) [] (fun _ => 0)
        none 100 2 3 2 4096 VMMAP_DIR_HILO).2.1 =
      vmmap_insert
        (vmmap_remove 100 2 (fun _ => true) []
          (fun x => if x = Mmobj.anon 0 then 1 else (fun _ => (0 : Int)) x)).2.1
        ⟨100, 100 + 2, 0, 3, 2, some (Mmobj.anon 0)⟩ :=
  map_shell_fields 1024 0 (fun _ _ => 0) (fun _ => true) [] (fun _ => 0) 100 2 3
    2 4096 VMMAP_DIR_HILO (by decide) (by decide) (fun i _ => le_refl 0)

/-- C8 counterexample: calling `map` with byte offset `off = 4096`
(`= 1` page) produces a region with `off = 0`, not the caller-supplied
offset converted to pages: vmmap.c:359 sets `vma_off = 0` unconditionally. -/
theorem map_ignores_off_cex :
    (vmmap_map 1024 true true 0 (fun _ _ => 0) (fun _ => true) [] (fun _ => 0)
        none 100 2 3 2 4096 VMMAP_DIR_HILO).2.1 =
      [⟨100, 102, 0, 3, 2, some (Mmobj.anon 0)⟩] ∧
    4096 / PAGE_SIZE = 1 ∧ (0 : Nat) ≠ 1 := by decide

end VmmapSpec
